import Mathlib

/-!
Shallow embedding of `src/main/ccs.cpp` (pbccs): the streaming chunk
assembler with its molecule/read filters, the thread-count helper, the
results report writer, the configuration-validation prefix of `main`, and
a model of the ordered work queue (`WorkQueue.h` is not part of this
repository's sources; it is modelled from the specification).

Machine floats are modelled as rationals: the claims under study concern
comparison outcomes and control flow, never rounding of float arithmetic.
-/

namespace PbCcs

/-! ## Data model (ccs.cpp typedefs over pacbio/ccs headers) -/

/-- Read-group metadata used by `VerifyChemistry` (ccs.cpp:266). -/
structure ReadGroupInfo where
  bindingKit : String
  sequencingKit : String
  basecallerVersion : String
  deriving DecidableEq, Repr

/-- The four per-channel signal-to-noise values (`SNR` with channels A,C,G,T). -/
structure SnrVec where
  a : ℚ
  c : ℚ
  g : ℚ
  t : ℚ
  deriving DecidableEq, Repr

/-- `*min_element(snr.begin(), snr.end())` over the four channels (ccs.cpp:441). -/
def minSnr4 (s : SnrVec) : ℚ :=
  min s.a (min (min s.c s.g) s.t)

/-- `ReadId`: movie name, hole number, optional query sub-interval.
Identity of a molecule per the data model; sub-reads carry an interval. -/
structure ReadId where
  movieName : String
  holeNumber : ℤ
  interval : Option (ℕ × ℕ)
  deriving DecidableEq, Repr

/-- `Subread = ReadType<ReadId>` (ccs.cpp:96, constructed at ccs.cpp:471). -/
structure Subread where
  id : ReadId
  seq : String
  localContextFlags : ℕ
  accuracy : ℚ
  deriving DecidableEq, Repr

/-- `Chunk = ChunkType<ReadId, Subread>` (ccs.cpp:97, constructed at ccs.cpp:450). -/
structure Chunk where
  Id : ReadId
  Reads : List Subread
  SignalToNoise : SnrVec
  deriving DecidableEq, Repr

/-- One BAM record of the input stream, with the fields ccs.cpp reads off it. -/
structure Read where
  movieName : String
  holeNumber : ℤ
  snr : SnrVec
  readGroup : ReadGroupInfo
  readAccuracy : ℚ
  seq : String
  queryStart : ℕ
  queryEnd : ℕ
  localContextFlags : ℕ
  deriving DecidableEq, Repr

/-- `VerifyChemistry` (ccs.cpp:266-281): accept only P6/C4 chemistry, i.e. one
of two (binding kit, sequencing kit) pairs with basecaller version prefixed
by 2.1 or 2.3. -/
def VerifyChemistry (rg : ReadGroupInfo) : Bool :=
  let bcVer := rg.basecallerVersion.take 3
  if rg.bindingKit == "100356300" && rg.sequencingKit == "100356200"
      && (bcVer == "2.1" || bcVer == "2.3") then true
  else if rg.bindingKit == "100372700" && rg.sequencingKit == "100356200"
      && (bcVer == "2.1" || bcVer == "2.3") then true
  else false

/-- Pipeline-relevant settings as they stand after ccs.cpp:318-334:
`minReadScore` is already scaled (ccs.cpp:323); the whitelist, when present,
is its `Contains` predicate (`Whitelist.h` is external to src/). -/
structure CcsConfig where
  minPasses : ℕ
  minSnr : ℚ
  minReadScore : ℚ
  whitelist : Option (String → ℤ → Bool)

/-- ccs.cpp:323: `minReadScore = 1000 * static_cast<float>(options.get(MinReadScore))`. -/
def scaledMinReadScore (x : ℚ) : ℚ := 1000 * x

/-- `whitelist && !whitelist->Contains(movieName, *holeNumber)` (ccs.cpp:430). -/
def whitelistExcludes (cfg : CcsConfig) (movie : String) (hole : ℤ) : Bool :=
  match cfg.whitelist with
  | none => false
  | some contains => ! contains movie hole

/-- ccs.cpp:325: `chunkSize = 1` (the --chunkSize option is commented out). -/
def chunkSize : ℕ := 1

/-! ## Chunk assembler state (main loop locals, ccs.cpp:382-400) -/

/-- State threaded through the read loop: the movie-name registry
(ccs.cpp:383), the per-file locals `holeNumber` / `skipZmw` (ccs.cpp:399-400),
the in-progress chunk vector (ccs.cpp:382), submissions made to the work
queue so far, and the producer-side counters (ccs.cpp:390). -/
structure LoopState where
  movieNames : List String
  holeNumber : Option ℤ
  skipZmw : Bool
  chunk : List Chunk
  submitted : List (List Chunk)
  poorSNR : ℕ
  tooFewPasses : ℕ
  deriving Repr

def initState : LoopState :=
  { movieNames := [], holeNumber := none, skipZmw := false, chunk := [],
    submitted := [], poorSNR := 0, tooFewPasses := 0 }

/-- ccs.cpp:406-409: intern the movie name on first sight. -/
def insertMovie (names : List String) (m : String) : List String :=
  if m ∈ names then names else names ++ [m]

/-- The `Subread` emplaced at ccs.cpp:471-478. -/
def mkSubread (r : Read) : Subread :=
  { id := { movieName := r.movieName, holeNumber := r.holeNumber,
            interval := some (r.queryStart, r.queryEnd) },
    seq := r.seq, localContextFlags := r.localContextFlags,
    accuracy := r.readAccuracy }

/-- The fresh `Chunk` emplaced at ccs.cpp:450-456. -/
def newChunk (r : Read) : Chunk :=
  { Id := { movieName := r.movieName, holeNumber := r.holeNumber, interval := none },
    Reads := [], SignalToNoise := r.snr }

/-- `chunk->back().Reads.emplace_back(...)` (ccs.cpp:471): append a sub-read
to the last chunk of the vector (no-op on an empty vector, which the loop
never reaches with `skipZmw == false`). -/
def appendToLast (cs : List Chunk) (s : Subread) : List Chunk :=
  match cs.getLast? with
  | none => cs
  | some c => cs.dropLast ++ [{ c with Reads := c.Reads ++ [s] }]

/-- ccs.cpp:413-420 (and again 483-490): if the in-progress chunk at the back
of the vector has fewer than `MinPasses` reads, count it as `tooFewPasses`
and pop it. -/
def flushSmallChunk (cfg : CcsConfig) (s : LoopState) : LoopState :=
  match s.chunk.getLast? with
  | none => s
  | some c =>
      if c.Reads.length < cfg.minPasses then
        { s with tooFewPasses := s.tooFewPasses + 1, chunk := s.chunk.dropLast }
      else s

/-- ccs.cpp:422-426: if the chunk vector has reached `chunkSize` (= 1),
submit it to the work queue and start a fresh vector. -/
def submitStep (s : LoopState) : LoopState :=
  if chunkSize ≤ s.chunk.length then
    { s with submitted := s.submitted ++ [s.chunk], chunk := [] }
  else s

/-- ccs.cpp:428-457: record the new hole number, then run the molecule-level
filters in order — whitelist, chemistry, minimum SNR — short-circuiting; on
full success start a new chunk for the molecule. -/
def startNewMolecule (cfg : CcsConfig) (s : LoopState) (r : Read) : LoopState :=
  let s := { s with holeNumber := some r.holeNumber }
  if whitelistExcludes cfg r.movieName r.holeNumber then
    { s with skipZmw := true }
  else if ! VerifyChemistry r.readGroup then
    { s with skipZmw := true }
  else if minSnr4 r.snr < cfg.minSnr then
    { s with skipZmw := true, poorSNR := s.poorSNR + 1 }
  else
    { s with skipZmw := false, chunk := s.chunk ++ [newChunk r] }

/-- ccs.cpp:460-478: skip the read if the molecule is skipped or the read
accuracy is below the (scaled) threshold; otherwise append it to the
current chunk. -/
def admitRead (cfg : CcsConfig) (s : LoopState) (r : Read) : LoopState :=
  if s.skipZmw then s
  else if r.readAccuracy < cfg.minReadScore then s
  else { s with chunk := appendToLast s.chunk (mkSubread r) }

/-- One iteration of the inner read loop (ccs.cpp:402-479). The source's
boundary test is `!holeNumber || *holeNumber != read.HoleNumber()`; its
negation is `holeNumber == some(read.HoleNumber())`. -/
def processRead (cfg : CcsConfig) (s0 : LoopState) (r : Read) : LoopState :=
  let s := { s0 with movieNames := insertMovie s0.movieNames r.movieName }
  let s :=
    if s.holeNumber = some r.holeNumber then s
    else startNewMolecule cfg (submitStep (flushSmallChunk cfg s)) r
  admitRead cfg s r

/-- One input file (ccs.cpp:393-480): `holeNumber` and `skipZmw` are fresh
locals of the per-file scope, so they reset at each file. -/
def processFile (cfg : CcsConfig) (s : LoopState) (reads : List Read) : LoopState :=
  reads.foldl (processRead cfg)
    { s with holeNumber := none, skipZmw := false }

/-- ccs.cpp:482-496: after all files, flush an undersized trailing chunk and
submit whatever remains. -/
def finalFlush (cfg : CcsConfig) (s : LoopState) : LoopState :=
  let s := flushSmallChunk cfg s
  if s.chunk.isEmpty then s
  else { s with submitted := s.submitted ++ [s.chunk], chunk := [] }

/-- The whole producer loop over all input files (ccs.cpp:393-496). -/
def runFiles (cfg : CcsConfig) (files : List (List Read)) : LoopState :=
  finalFlush cfg (files.foldl (processFile cfg) initState)

/-! ## ThreadCount (ccs.cpp:222-230) -/

/-- `ThreadCount` with the detected hardware concurrency made explicit:
`m = thread::hardware_concurrency()`; `n < 1 → max(1, m + n)`, else
`min(m, n)`. -/
def ThreadCount (hc : ℕ) (n : ℤ) : ℤ :=
  let m : ℤ := hc
  if n < 1 then max 1 (m + n)
  else min m n

/-! ## Results counters and the report (ccs.cpp:233-262, 498-516) -/

/-- The outcome counters of `Results = ResultType<CCS>`, one per mutually
exclusive molecule outcome, in the order the report prints them. -/
structure Results where
  Success : ℕ
  PoorSNR : ℕ
  NoSubreads : ℕ
  TooShort : ℕ
  TooFewPasses : ℕ
  TooManyUnusable : ℕ
  NonConvergent : ℕ
  PoorQuality : ℕ
  deriving DecidableEq, Repr

/-- Modelled from the spec: `ResultType::Total` lives in
`pacbio/ccs/Consensus.h`, which is not among this repository's sources.
The spec states percentages are count / total-molecules-seen, and the
outcomes are mutually exclusive, so the total is the sum of the eight
counters. -/
def Results.Total (c : Results) : ℕ :=
  c.Success + c.PoorSNR + c.NoSubreads + c.TooShort + c.TooFewPasses +
    c.TooManyUnusable + c.NonConvergent + c.PoorQuality

/-- Two decimal digits, zero padded. -/
def pad2 (n : ℕ) : String :=
  if n < 10 then "0" ++ toString n else toString n

/-- Fixed-notation rendering of a rational with two decimal places,
rounding to the nearest hundredth — the effect of
`report << fixed << setprecision(2)` (ccs.cpp:237) on the values printed. -/
def fmtFixed2 (q : ℚ) : String :=
  let s : ℤ := round (q * 100)
  if s < 0 then "-" ++ toString ((-s) / 100) ++ "." ++ pad2 ((-s) % 100).toNat
  else toString (s / 100) ++ "." ++ pad2 (s % 100).toNat

/-- One `report << label << ',' << count << ',' << pct << '%' << endl`
line of `WriteResultsReport`. -/
def reportLine (label : String) (count : ℕ) (pct : ℚ) : String :=
  label ++ "," ++ toString count ++ "," ++ fmtFixed2 pct ++ "%"

/-- `WriteResultsReport` (ccs.cpp:233-262): the eight CSV lines, in source
order, each with the counter and `100.0 * counter / total`. -/
def WriteResultsReport (c : Results) : List String :=
  let total : ℚ := c.Total
  [ reportLine "Success -- CCS generated" c.Success (100 * (c.Success : ℚ) / total),
    reportLine "Failed -- Below SNR threshold" c.PoorSNR (100 * (c.PoorSNR : ℚ) / total),
    reportLine "Failed -- No usable subreads" c.NoSubreads (100 * (c.NoSubreads : ℚ) / total),
    reportLine "Failed -- Insert size too small" c.TooShort (100 * (c.TooShort : ℚ) / total),
    reportLine "Failed -- Not enough full passes" c.TooFewPasses (100 * (c.TooFewPasses : ℚ) / total),
    reportLine "Failed -- Too many unusable subreads" c.TooManyUnusable (100 * (c.TooManyUnusable : ℚ) / total),
    reportLine "Failed -- CCS did not converge" c.NonConvergent (100 * (c.NonConvergent : ℚ) / total),
    reportLine "Failed -- CCS below minimum predicted accuracy" c.PoorQuality (100 * (c.PoorQuality : ℚ) / total) ]

/-- The claim's reading of the report: rows in the fixed outcome order
Success, PoorSNR, NoSubreads, TooShort, TooFewPasses, TooManyUnusable,
NonConvergent, PoorQuality, each row carrying its label, its count, and
100 × count / total formatted to two decimals. Stated independently of
`WriteResultsReport` so the two can be compared. -/
def claimReportRows (c : Results) : List String :=
  (List.zip
    [ "Success -- CCS generated", "Failed -- Below SNR threshold",
      "Failed -- No usable subreads", "Failed -- Insert size too small",
      "Failed -- Not enough full passes", "Failed -- Too many unusable subreads",
      "Failed -- CCS did not converge", "Failed -- CCS below minimum predicted accuracy" ]
    [ c.Success, c.PoorSNR, c.NoSubreads, c.TooShort, c.TooFewPasses,
      c.TooManyUnusable, c.NonConvergent, c.PoorQuality ]).map
    (fun p => p.1 ++ "," ++ toString p.2 ++ "," ++
      fmtFixed2 (100 * (p.2 : ℚ) / (c.Total : ℚ)) ++ "%")

/-- ccs.cpp:503-505: after `writer.get()`, fold the producer-side rejection
counts into the consumer-accumulated counters. -/
def mergedCounts (consumer : Results) (poorSNR tooFewPasses : ℕ) : Results :=
  { consumer with PoorSNR := consumer.PoorSNR + poorSNR,
                  TooFewPasses := consumer.TooFewPasses + tooFewPasses }

/-- ccs.cpp:498-516 composed with the producer loop: the report written at
the end of the run, from the consumer counters merged with the producer's
`poorSNR` / `tooFewPasses` tallies. -/
def finalReport (cfg : CcsConfig) (files : List (List Read)) (consumer : Results) :
    List String :=
  let s := runFiles cfg files
  WriteResultsReport (mergedCounts consumer s.poorSNR s.tooFewPasses)

/-! ## Startup validation (ccs.cpp:284-390)

`parser.error(...)` prints and exits the process, so each check below
terminates `main` immediately when it fires. -/

/-- The inputs the validation prefix of `main` consults. `zmwsParseOk`
stands for whether the `Whitelist` constructor (external to src/) accepts
the spec string without throwing; `fileExists` models the filesystem. -/
structure CliEnv where
  minPasses : ℤ
  zmwsSpec : String
  zmwsParseOk : String → Bool
  args : List String
  forceOutput : Bool
  fileExists : String → Bool

/-- The fatal configuration errors, in source order of their checks. -/
inductive ConfigError where
  | badMinPasses
  | badZmws
  | missingOutput
  | missingFiles
  | outputExists
  deriving DecidableEq, Repr

/-- Externally visible startup actions after validation passes. -/
inductive MainEvent where
  | setupLogging
  | createBamWriter (path : String)
  | startWorkQueue
  deriving DecidableEq, Repr

/-- The startup prefix of `main` (ccs.cpp:327-390): the four fatal
configuration checks in source order, then logging setup, then the
construction of the output `BamWriter` (which creates/truncates the output
file) and the work queue. Returns the events performed and the error, if
any, that aborted the process. -/
def mainStartup (env : CliEnv) : List MainEvent × Option ConfigError :=
  if env.minPasses < 1 then ([], some ConfigError.badMinPasses)
  else if env.zmwsSpec ≠ "" ∧ env.zmwsParseOk env.zmwsSpec = false then
    ([], some ConfigError.badZmws)
  else
    match env.args with
    | [] => ([], some ConfigError.missingOutput)
    | [_] => ([], some ConfigError.missingFiles)
    | out :: _ :: _ =>
        if env.fileExists out = true ∧ env.forceOutput = false then
          ([], some ConfigError.outputExists)
        else
          ([MainEvent.setupLogging, MainEvent.createBamWriter out,
            MainEvent.startWorkQueue], none)

/-! ## Bounded ordered work queue (claim C2)

Modelled from the spec: `pacbio/ccs/WorkQueue.h` is not among this
repository's sources; only its call sites are (`ProduceWith`,
`ConsumeWith`, `Finalize` in ccs.cpp). Per the spec, `Submit` appends a
pending-result handle to an internal FIFO and hands the computation to the
worker pool; workers complete handles in arbitrary order; `Consume` pops
the head handle and blocks until that specific handle has completed. The
model is a small-step transition relation whose `complete` steps may occur
in any order, interleaved with `consume` steps. -/

/-- Queue state: the FIFO of not-yet-consumed handles (submission index
paired with that submission's result), the set of handle indices whose
worker computation has finished, and the results delivered so far. -/
structure QueueState (α : Type) where
  pending : List (ℕ × α)
  completedIdx : List ℕ
  delivered : List (ℕ × α)

/-- One transition: a worker finishes some outstanding handle (any order),
or the consumer pops the head handle — permitted only once that specific
handle has completed. -/
inductive QStep {α : Type} : QueueState α → QueueState α → Prop where
  | complete (q : QueueState α) (i : ℕ)
      (hmem : i ∈ q.pending.map Prod.fst) (hnew : i ∉ q.completedIdx) :
      QStep q ⟨q.pending, i :: q.completedIdx, q.delivered⟩
  | consume (q : QueueState α) (h : ℕ × α) (rest : List (ℕ × α))
      (hhead : q.pending = h :: rest) (hdone : h.1 ∈ q.completedIdx) :
      QStep q ⟨rest, q.completedIdx, q.delivered ++ [h]⟩

/-- Reachability by any interleaving of steps. -/
inductive QReach {α : Type} : QueueState α → QueueState α → Prop where
  | refl (q : QueueState α) : QReach q q
  | tail (a b c : QueueState α) : QReach a b → QStep b c → QReach a c

/-- The queue as it stands after the N submissions, before any completion. -/
def initQueue {α : Type} (subs : List (ℕ × α)) : QueueState α :=
  ⟨subs, [], []⟩

/-! ## The claim's boundary rule (claim C1)

A second assembler, following the claim's words: a molecule boundary
occurs exactly when the incoming read's (movie name, hole number) pair —
its MoleculeId — differs from the current molecule's identity. It differs
from `processRead` only in the state consulted by the boundary test. -/

/-- `LoopState` extended with the current molecule's movie name, which the
claim's boundary rule needs and the source never tracks. -/
structure SpecC1State where
  base : LoopState
  curMovie : Option String

/-- One read-loop iteration under the claim's boundary rule: trigger the
discard/submit/filter steps when (movie, hole) differs from the current
molecule, not merely the hole number. -/
def specC1ProcessRead (cfg : CcsConfig) (st : SpecC1State) (r : Read) : SpecC1State :=
  let s := { st.base with movieNames := insertMovie st.base.movieNames r.movieName }
  if st.base.holeNumber = some r.holeNumber ∧ st.curMovie = some r.movieName then
    { base := admitRead cfg s r, curMovie := st.curMovie }
  else
    { base := admitRead cfg (startNewMolecule cfg (submitStep (flushSmallChunk cfg s)) r) r,
      curMovie := some r.movieName }

/-- The claim's assembler run over one input file from the initial state,
with the final end-of-stream flush. -/
def specC1RunFile (cfg : CcsConfig) (reads : List Read) : LoopState :=
  finalFlush cfg (reads.foldl (specC1ProcessRead cfg) ⟨initState, none⟩).base

/-! ## Derived stream functions used to state the loop lemmas -/

/-- The movie-name registry after a list of reads. -/
def registerAll (names : List String) (l : List Read) : List String :=
  l.foldl (fun acc r => insertMovie acc r.movieName) names

/-- The chunk vector after admitting a list of same-molecule reads. -/
def appendAllSubs (cfg : CcsConfig) (cs : List Chunk) (l : List Read) : List Chunk :=
  l.foldl
    (fun cs r =>
      if r.readAccuracy < cfg.minReadScore then cs
      else appendToLast cs (mkSubread r)) cs

/-- The sub-reads a list of same-molecule reads contributes, in stream
order: those whose accuracy meets the (scaled) threshold. -/
def admittedSubs (cfg : CcsConfig) (l : List Read) : List Subread :=
  (l.filter (fun r => decide (cfg.minReadScore ≤ r.readAccuracy))).map mkSubread

/-! ## Concrete inputs used by counterexamples and witnesses -/

/-- A read group accepted by `VerifyChemistry`. -/
def p6c4ReadGroup : ReadGroupInfo :=
  { bindingKit := "100356300", sequencingKit := "100356200",
    basecallerVersion := "2.1.0.0" }

def highSnr : SnrVec := ⟨10, 10, 10, 10⟩

/-- Default-flag configuration: minPasses 1 (smallest legal), minSnr 4,
minReadScore 0.75 scaled to 750 (= `scaledMinReadScore (3/4)`), no
whitelist. -/
def defaultCfg : CcsConfig :=
  { minPasses := 1, minSnr := 4, minReadScore := 750, whitelist := none }

def exRead1 : Read :=
  { movieName := "movieA", holeNumber := 7, snr := highSnr,
    readGroup := p6c4ReadGroup, readAccuracy := 900, seq := "ACGT",
    queryStart := 0, queryEnd := 4, localContextFlags := 0 }

/-- Same hole number as `exRead1`, different movie name. -/
def exRead2 : Read :=
  { exRead1 with
    movieName := "movieB", seq := "TTTT", queryStart := 4, queryEnd := 8 }

/-- Same movie as `exRead1`, a different hole number. -/
def exRead3 : Read :=
  { exRead1 with holeNumber := 8, seq := "GGGG" }

/-- State of the assembler after the first example read. -/
def stateAfter1 : LoopState := processRead defaultCfg initState exRead1

/-- A state holding a zero-read in-progress chunk (every read of the
molecule failed the accuracy filter). -/
def emptyChunkState : LoopState :=
  { initState with chunk := [{ Id := ⟨"movieA", 7, none⟩, Reads := [], SignalToNoise := highSnr }] }

/-- A whitelist configuration that excludes every molecule. -/
def wlCfg : CcsConfig := { defaultCfg with whitelist := some (fun _ _ => false) }

/-- A read whose read group fails `VerifyChemistry`. -/
def badChemRead : Read :=
  { exRead1 with
    readGroup := { bindingKit := "000", sequencingKit := "000", basecallerVersion := "1.0" } }

/-- A read whose SNR minimum is below the default threshold. -/
def lowSnrRead : Read := { exRead1 with snr := ⟨2, 2, 2, 2⟩ }

/-- A command line with MinPasses 0 and otherwise valid inputs. -/
def badMinPassesEnv : CliEnv :=
  { minPasses := 0, zmwsSpec := "", zmwsParseOk := fun _ => true,
    args := ["out.bam", "in.bam"], forceOutput := false,
    fileExists := fun _ => false }

/-- A read of the same molecule as `exRead1` whose accuracy fails the
default threshold. -/
def lowAccRead : Read := { exRead1 with readAccuracy := 100, seq := "CCCC" }

/-- A second pass of the same molecule as `exRead1`. -/
def exRead1b : Read := { exRead1 with seq := "AAAA", queryStart := 4, queryEnd := 8 }

/-- Sample counters with a positive total. -/
def sampleCounts : Results :=
  { Success := 3, PoorSNR := 1, NoSubreads := 0, TooShort := 2,
    TooFewPasses := 1, TooManyUnusable := 0, NonConvergent := 1,
    PoorQuality := 0 }

/-! # Lemmas -/

lemma admitRead_submitted (cfg : CcsConfig) (s : LoopState) (r : Read) :
    (admitRead cfg s r).submitted = s.submitted := by
  unfold admitRead
  split
  · rfl
  split <;> rfl

lemma admitRead_skipZmw (cfg : CcsConfig) (s : LoopState) (r : Read) :
    (admitRead cfg s r).skipZmw = s.skipZmw := by
  unfold admitRead
  split
  · rfl
  split <;> rfl

lemma admitRead_holeNumber (cfg : CcsConfig) (s : LoopState) (r : Read) :
    (admitRead cfg s r).holeNumber = s.holeNumber := by
  unfold admitRead
  split
  · rfl
  split <;> rfl

lemma admitRead_poorSNR (cfg : CcsConfig) (s : LoopState) (r : Read) :
    (admitRead cfg s r).poorSNR = s.poorSNR := by
  unfold admitRead
  split
  · rfl
  split <;> rfl

lemma admitRead_tooFewPasses (cfg : CcsConfig) (s : LoopState) (r : Read) :
    (admitRead cfg s r).tooFewPasses = s.tooFewPasses := by
  unfold admitRead
  split
  · rfl
  split <;> rfl

lemma admitRead_movieNames (cfg : CcsConfig) (s : LoopState) (r : Read) :
    (admitRead cfg s r).movieNames = s.movieNames := by
  unfold admitRead
  split
  · rfl
  split <;> rfl

lemma appendToLast_length (cs : List Chunk) (a : Subread) :
    (appendToLast cs a).length = cs.length := by
  unfold appendToLast
  cases h : cs.getLast? with
  | none => rfl
  | some c =>
      have hne : cs ≠ [] := by
        intro hnil; rw [hnil] at h; simp at h
      have hpos : 0 < cs.length := List.length_pos.mpr hne
      simp [List.length_dropLast]
      omega

lemma flushSmallChunk_submitted (cfg : CcsConfig) (s : LoopState) :
    (flushSmallChunk cfg s).submitted = s.submitted := by
  unfold flushSmallChunk
  split
  · rfl
  split <;> rfl

lemma flushSmallChunk_poorSNR (cfg : CcsConfig) (s : LoopState) :
    (flushSmallChunk cfg s).poorSNR = s.poorSNR := by
  unfold flushSmallChunk
  split
  · rfl
  split <;> rfl

lemma flushSmallChunk_skipZmw (cfg : CcsConfig) (s : LoopState) :
    (flushSmallChunk cfg s).skipZmw = s.skipZmw := by
  unfold flushSmallChunk
  split
  · rfl
  split <;> rfl

lemma flushSmallChunk_holeNumber (cfg : CcsConfig) (s : LoopState) :
    (flushSmallChunk cfg s).holeNumber = s.holeNumber := by
  unfold flushSmallChunk
  split
  · rfl
  split <;> rfl

lemma flushSmallChunk_movieNames (cfg : CcsConfig) (s : LoopState) :
    (flushSmallChunk cfg s).movieNames = s.movieNames := by
  unfold flushSmallChunk
  split
  · rfl
  split <;> rfl

/-- The boundary/final min-passes check on an in-progress chunk below the
threshold: count it and pop it. -/
lemma flushSmallChunk_small (cfg : CcsConfig) (s : LoopState) (cs : List Chunk)
    (c : Chunk) (hchunk : s.chunk = cs ++ [c])
    (hsmall : c.Reads.length < cfg.minPasses) :
    flushSmallChunk cfg s =
      { s with tooFewPasses := s.tooFewPasses + 1, chunk := cs } := by
  unfold flushSmallChunk
  rw [hchunk]
  simp [hsmall]

/-- The min-passes check leaves a big-enough trailing chunk alone. -/
lemma flushSmallChunk_big (cfg : CcsConfig) (s : LoopState) (cs : List Chunk)
    (c : Chunk) (hchunk : s.chunk = cs ++ [c])
    (hbig : ¬ c.Reads.length < cfg.minPasses) :
    flushSmallChunk cfg s = s := by
  unfold flushSmallChunk
  rw [hchunk]
  simp [hbig]

lemma flushSmallChunk_empty (cfg : CcsConfig) (s : LoopState)
    (hchunk : s.chunk = []) : flushSmallChunk cfg s = s := by
  unfold flushSmallChunk
  rw [hchunk]
  rfl

lemma submitStep_movieNames (s : LoopState) :
    (submitStep s).movieNames = s.movieNames := by
  unfold submitStep; split <;> rfl

lemma submitStep_holeNumber (s : LoopState) :
    (submitStep s).holeNumber = s.holeNumber := by
  unfold submitStep; split <;> rfl

lemma submitStep_skipZmw (s : LoopState) :
    (submitStep s).skipZmw = s.skipZmw := by
  unfold submitStep; split <;> rfl

lemma submitStep_poorSNR (s : LoopState) :
    (submitStep s).poorSNR = s.poorSNR := by
  unfold submitStep; split <;> rfl

lemma submitStep_tooFewPasses (s : LoopState) :
    (submitStep s).tooFewPasses = s.tooFewPasses := by
  unfold submitStep; split <;> rfl

lemma submitStep_empty (s : LoopState) (h : s.chunk = []) : submitStep s = s := by
  unfold submitStep
  rw [h]
  simp [chunkSize]

lemma submitStep_nonempty (s : LoopState) (h : s.chunk ≠ []) :
    submitStep s = { s with submitted := s.submitted ++ [s.chunk], chunk := [] } := by
  unfold submitStep
  have : chunkSize ≤ s.chunk.length := by
    have := List.length_pos.mpr h
    simpa [chunkSize] using this
  simp [this]

lemma startNewMolecule_submitted (cfg : CcsConfig) (s : LoopState) (r : Read) :
    (startNewMolecule cfg s r).submitted = s.submitted := by
  unfold startNewMolecule
  split
  · rfl
  split
  · rfl
  split <;> rfl

lemma startNewMolecule_tooFewPasses (cfg : CcsConfig) (s : LoopState) (r : Read) :
    (startNewMolecule cfg s r).tooFewPasses = s.tooFewPasses := by
  unfold startNewMolecule
  split
  · rfl
  split
  · rfl
  split <;> rfl

lemma startNewMolecule_movieNames (cfg : CcsConfig) (s : LoopState) (r : Read) :
    (startNewMolecule cfg s r).movieNames = s.movieNames := by
  unfold startNewMolecule
  split
  · rfl
  split
  · rfl
  split <;> rfl

lemma startNewMolecule_holeNumber (cfg : CcsConfig) (s : LoopState) (r : Read) :
    (startNewMolecule cfg s r).holeNumber = some r.holeNumber := by
  unfold startNewMolecule
  split
  · rfl
  split
  · rfl
  split <;> rfl

/-- Unfolding of a read-loop iteration when the incoming read's hole number
matches the current one: no boundary work, only the registry insert and the
per-read admission. -/
lemma processRead_same_hole (cfg : CcsConfig) (s : LoopState) (r : Read)
    (h : s.holeNumber = some r.holeNumber) :
    processRead cfg s r =
      admitRead cfg { s with movieNames := insertMovie s.movieNames r.movieName } r := by
  unfold processRead
  simp [h]

/-- Unfolding of a read-loop iteration at a molecule boundary. -/
lemma processRead_boundary (cfg : CcsConfig) (s : LoopState) (r : Read)
    (h : ¬ s.holeNumber = some r.holeNumber) :
    processRead cfg s r =
      admitRead cfg
        (startNewMolecule cfg
          (submitStep (flushSmallChunk cfg
            { s with movieNames := insertMovie s.movieNames r.movieName })) r) r := by
  unfold processRead
  simp [h]

lemma admitRead_chunk_length (cfg : CcsConfig) (s : LoopState) (r : Read) :
    (admitRead cfg s r).chunk.length = s.chunk.length := by
  unfold admitRead
  split
  · rfl
  split
  · rfl
  simp [appendToLast_length]

/-- Non-boundary iteration on an unskipped molecule: registry insert plus
the per-read accuracy gate on the chunk, nothing else. -/
lemma processRead_same_hole_noskip (cfg : CcsConfig) (s : LoopState) (r : Read)
    (hhole : s.holeNumber = some r.holeNumber) (hskip : s.skipZmw = false) :
    processRead cfg s r =
      { s with movieNames := insertMovie s.movieNames r.movieName,
               chunk := if r.readAccuracy < cfg.minReadScore then s.chunk
                        else appendToLast s.chunk (mkSubread r) } := by
  rw [processRead_same_hole cfg s r hhole]
  unfold admitRead
  simp only [hskip, Bool.false_eq_true, if_false]
  by_cases hacc : r.readAccuracy < cfg.minReadScore
  · simp [hacc]
  · simp [hacc]

lemma registerAll_cons (names : List String) (r : Read) (t : List Read) :
    registerAll names (r :: t) = registerAll (insertMovie names r.movieName) t := rfl

lemma appendAllSubs_cons (cfg : CcsConfig) (cs : List Chunk) (r : Read) (t : List Read) :
    appendAllSubs cfg cs (r :: t) =
      appendAllSubs cfg
        (if r.readAccuracy < cfg.minReadScore then cs
         else appendToLast cs (mkSubread r)) t := rfl

lemma admittedSubs_cons (cfg : CcsConfig) (r : Read) (t : List Read) :
    admittedSubs cfg (r :: t) =
      (if cfg.minReadScore ≤ r.readAccuracy then [mkSubread r] else []) ++
        admittedSubs cfg t := by
  unfold admittedSubs
  rw [List.filter_cons]
  split <;> simp_all

/-- Reads whose accuracy all meet the threshold contribute one sub-read
each, in stream order. -/
lemma admittedSubs_all_pass (cfg : CcsConfig) (l : List Read)
    (h : ∀ r ∈ l, ¬ r.readAccuracy < cfg.minReadScore) :
    admittedSubs cfg l = l.map mkSubread := by
  unfold admittedSubs
  rw [List.filter_eq_self.mpr]
  intro r hr
  simpa using not_lt.mp (h r hr)

lemma appendToLast_single (c : Chunk) (a : Subread) :
    appendToLast [c] a = [{ c with Reads := c.Reads ++ [a] }] := by
  simp [appendToLast]

/-- Admitting a same-molecule read list into a singleton chunk vector
appends exactly the admitted sub-reads, in stream order. -/
lemma appendAllSubs_single (cfg : CcsConfig) (c : Chunk) (l : List Read) :
    appendAllSubs cfg [c] l = [{ c with Reads := c.Reads ++ admittedSubs cfg l }] := by
  induction l generalizing c with
  | nil => simp [appendAllSubs, admittedSubs]
  | cons r t ih =>
      rw [appendAllSubs_cons, admittedSubs_cons]
      by_cases hacc : r.readAccuracy < cfg.minReadScore
      · rw [if_pos hacc, if_neg (not_le.mpr hacc), ih c]
        simp
      · rw [if_neg hacc, if_pos (not_lt.mp hacc), appendToLast_single, ih]
        simp

/-- Folding the read loop over reads of the current (unskipped) molecule:
no boundary work fires; the registry grows and the admitted sub-reads are
appended, everything else is untouched. -/
lemma foldl_processRead_same_hole (cfg : CcsConfig) (l : List Read) (s : LoopState)
    (h : ℤ) (hhole : s.holeNumber = some h) (hskip : s.skipZmw = false)
    (hl : ∀ r ∈ l, r.holeNumber = h) :
    l.foldl (processRead cfg) s =
      { s with movieNames := registerAll s.movieNames l,
               chunk := appendAllSubs cfg s.chunk l } := by
  induction l generalizing s with
  | nil => simp [registerAll, appendAllSubs]
  | cons r t ih =>
      have hr : r.holeNumber = h := hl r (by simp)
      have hsame : s.holeNumber = some r.holeNumber := by rw [hhole, hr]
      rw [List.foldl_cons, processRead_same_hole_noskip cfg s r hsame hskip,
        registerAll_cons, appendAllSubs_cons]
      by_cases hacc : r.readAccuracy < cfg.minReadScore
      · rw [if_pos hacc]
        exact ih _ hhole hskip (fun x hx => hl x (by simp [hx]))
      · rw [if_neg hacc]
        exact ih _ hhole hskip (fun x hx => hl x (by simp [hx]))

/-- Every batch ever handed to the work queue consists of chunks meeting
the minimum-passes threshold. -/
def GoodBatches (cfg : CcsConfig) (bs : List (List Chunk)) : Prop :=
  ∀ b ∈ bs, ∀ c ∈ b, cfg.minPasses ≤ c.Reads.length

/-- Loop invariant: submitted batches are all big enough, and the chunk
vector holds at most one in-progress chunk (chunkSize is 1). -/
def StateOk (cfg : CcsConfig) (s : LoopState) : Prop :=
  GoodBatches cfg s.submitted ∧ s.chunk.length ≤ 1

lemma stateOk_init (cfg : CcsConfig) : StateOk cfg initState := by
  constructor
  · intro b hb
    simp [initState] at hb
  · simp [initState]

/-- After the min-passes check, the chunk vector is empty or holds exactly
one chunk that meets the threshold. -/
lemma flushSmallChunk_shape (cfg : CcsConfig) (s : LoopState)
    (hlen : s.chunk.length ≤ 1) :
    (flushSmallChunk cfg s).chunk = [] ∨
      ∃ c, (flushSmallChunk cfg s).chunk = [c] ∧ cfg.minPasses ≤ c.Reads.length := by
  cases hchunk : s.chunk with
  | nil =>
      left
      rw [flushSmallChunk_empty cfg s hchunk, hchunk]
  | cons c rest =>
      have hrest : rest = [] := by
        rw [hchunk] at hlen
        cases rest with
        | nil => rfl
        | cons a b => simp at hlen
      subst hrest
      by_cases hsmall : c.Reads.length < cfg.minPasses
      · left
        rw [flushSmallChunk_small cfg s [] c (by rw [hchunk]; rfl) hsmall]
      · right
        exact ⟨c, by rw [flushSmallChunk_big cfg s [] c (by rw [hchunk]; rfl) hsmall, hchunk],
          not_lt.mp hsmall⟩

lemma startNewMolecule_chunk_length (cfg : CcsConfig) (s : LoopState) (r : Read) :
    (startNewMolecule cfg s r).chunk.length ≤ s.chunk.length + 1 := by
  unfold startNewMolecule
  split
  · simp
  split
  · simp
  split
  · simp
  · simp

/-- The loop invariant is preserved by one read iteration. -/
lemma stateOk_processRead (cfg : CcsConfig) (s : LoopState) (r : Read)
    (hok : StateOk cfg s) : StateOk cfg (processRead cfg s r) := by
  by_cases hhole : s.holeNumber = some r.holeNumber
  · rw [processRead_same_hole cfg s r hhole]
    refine ⟨?_, ?_⟩
    · rw [admitRead_submitted]
      exact hok.1
    · rw [admitRead_chunk_length]
      exact hok.2
  · rw [processRead_boundary cfg s r hhole]
    set s1 : LoopState := { s with movieNames := insertMovie s.movieNames r.movieName }
    have hok1 : StateOk cfg s1 := hok
    have hshape := flushSmallChunk_shape cfg s1 hok1.2
    have hgood1 : GoodBatches cfg (flushSmallChunk cfg s1).submitted := by
      rw [flushSmallChunk_submitted]
      exact hok1.1
    have hsub : GoodBatches cfg (submitStep (flushSmallChunk cfg s1)).submitted ∧
        (submitStep (flushSmallChunk cfg s1)).chunk = [] := by
      rcases hshape with hempty | ⟨c, hc, hcgood⟩
      · rw [submitStep_empty _ hempty]
        exact ⟨hgood1, hempty⟩
      · rw [submitStep_nonempty _ (by rw [hc]; simp)]
        refine ⟨?_, rfl⟩
        intro b hb
        simp at hb
        rcases hb with hb | hb
        · exact hgood1 b hb
        · intro x hx
          rw [hb, hc] at hx
          simp at hx
          rw [hx]
          exact hcgood
    refine ⟨?_, ?_⟩
    · rw [admitRead_submitted, startNewMolecule_submitted]
      exact hsub.1
    · rw [admitRead_chunk_length]
      calc (startNewMolecule cfg (submitStep (flushSmallChunk cfg s1)) r).chunk.length
          ≤ (submitStep (flushSmallChunk cfg s1)).chunk.length + 1 :=
            startNewMolecule_chunk_length _ _ _
        _ ≤ 1 := by rw [hsub.2]; simp

lemma stateOk_foldl (cfg : CcsConfig) (l : List Read) (s : LoopState)
    (hok : StateOk cfg s) : StateOk cfg (l.foldl (processRead cfg) s) := by
  induction l generalizing s with
  | nil => exact hok
  | cons r t ih => exact ih _ (stateOk_processRead cfg s r hok)

lemma stateOk_processFile (cfg : CcsConfig) (s : LoopState) (reads : List Read)
    (hok : StateOk cfg s) : StateOk cfg (processFile cfg s reads) := by
  unfold processFile
  exact stateOk_foldl cfg reads _ hok

lemma stateOk_foldl_files (cfg : CcsConfig) (files : List (List Read)) (s : LoopState)
    (hok : StateOk cfg s) : StateOk cfg (files.foldl (processFile cfg) s) := by
  induction files generalizing s with
  | nil => exact hok
  | cons f fs ih => exact ih _ (stateOk_processFile cfg s f hok)

/-- The end-of-stream flush also only ever submits big-enough chunks. -/
lemma goodBatches_finalFlush (cfg : CcsConfig) (s : LoopState)
    (hok : StateOk cfg s) : GoodBatches cfg (finalFlush cfg s).submitted := by
  unfold finalFlush
  have hshape := flushSmallChunk_shape cfg s hok.2
  have hgood : GoodBatches cfg (flushSmallChunk cfg s).submitted := by
    rw [flushSmallChunk_submitted]
    exact hok.1
  rcases hshape with hempty | ⟨c, hc, hcgood⟩
  · simp only [hempty]
    simpa using hgood
  · simp only [hc]
    simp only [List.isEmpty_cons, if_false]
    intro b hb
    simp at hb
    rcases hb with hb | hb
    · exact hgood b hb
    · intro x hx
      rw [hb] at hx
      simp at hx
      rw [hx]
      exact hcgood

/-- The producer never submits a chunk below the minimum-passes threshold. -/
lemma goodBatches_runFiles (cfg : CcsConfig) (files : List (List Read)) :
    GoodBatches cfg (runFiles cfg files).submitted := by
  unfold runFiles
  exact goodBatches_finalFlush cfg _ (stateOk_foldl_files cfg files _ (stateOk_init cfg))

/-- FIFO invariant of the queue model: steps never reorder, they only move
the completed head from pending to delivered. -/
lemma qreach_invariant {α : Type} (a b : QueueState α) (h : QReach a b) :
    b.delivered ++ b.pending = a.delivered ++ a.pending := by
  induction h with
  | refl => rfl
  | tail y z hxy hstep ih =>
      cases hstep with
      | complete i hmem hnew => simpa using ih
      | consume hd rest hhead hdone =>
          show (y.delivered ++ [hd]) ++ rest = a.delivered ++ a.pending
          rw [List.append_assoc, List.singleton_append, ← hhead]
          exact ih

/-- An error branch of `mainStartup` performs no startup events. -/
lemma mainStartup_error_no_events (env : CliEnv) (e : ConfigError) :
    (mainStartup env).2 = some e → (mainStartup env).1 = [] := by
  unfold mainStartup
  split
  · intro _; rfl
  split
  · intro _; rfl
  split
  · intro _; rfl
  · intro _; rfl
  · split
    · intro _; rfl
    · intro he; exact absurd he (by simp)

/-! # Claim theorems -/

/-- C1 counterexample: the claim says a molecule boundary fires exactly when
the (movie name, hole number) pair differs; feed both assemblers two reads
with the same hole number but different movie names. Under the claim's
boundary rule the run submits two chunks; the code's run submits one —
the movie change did not trigger a boundary. -/
theorem C1_boundary_counterexample :
    exRead1.movieName ≠ exRead2.movieName ∧
    exRead1.holeNumber = exRead2.holeNumber ∧
    (specC1RunFile defaultCfg [exRead1, exRead2]).submitted.length = 2 ∧
    (runFiles defaultCfg [[exRead1, exRead2]]).submitted.length = 1 :=
  ⟨by decide, by decide, by decide, by decide⟩

/-- C1, amended: a molecule boundary (discard/submit/filter and the start of
a new chunk) occurs exactly when the incoming read's hole number differs
from the current `holeNumber` state (or no molecule is current); the movie
name is not consulted. When the hole number matches, only the registry
insert and per-read admission run: submissions, both counters, the hole
number and the skip flag are untouched. -/
theorem C1_boundary_hole_only (cfg : CcsConfig) (s : LoopState) (r : Read) :
    (s.holeNumber = some r.holeNumber →
      processRead cfg s r =
        admitRead cfg { s with movieNames := insertMovie s.movieNames r.movieName } r ∧
      (processRead cfg s r).submitted = s.submitted ∧
      (processRead cfg s r).tooFewPasses = s.tooFewPasses ∧
      (processRead cfg s r).poorSNR = s.poorSNR ∧
      (processRead cfg s r).holeNumber = s.holeNumber ∧
      (processRead cfg s r).skipZmw = s.skipZmw) ∧
    (s.holeNumber ≠ some r.holeNumber →
      processRead cfg s r =
        admitRead cfg
          (startNewMolecule cfg (submitStep (flushSmallChunk cfg
            { s with movieNames := insertMovie s.movieNames r.movieName })) r) r) := by
  constructor
  · intro hhole
    have heq := processRead_same_hole cfg s r hhole
    refine ⟨heq, ?_, ?_, ?_, ?_, ?_⟩ <;> rw [heq]
    · rw [admitRead_submitted]
    · rw [admitRead_tooFewPasses]
    · rw [admitRead_poorSNR]
    · rw [admitRead_holeNumber]
    · rw [admitRead_skipZmw]
  · exact processRead_boundary cfg s r

/-- C1 witness: both directions of the amended boundary rule at concrete
inputs — a same-hole read leaves submissions untouched even though its
movie differs, and the very first read takes the boundary path. -/
theorem C1_boundary_hole_only_witness :
    (processRead defaultCfg stateAfter1 exRead2).submitted = stateAfter1.submitted ∧
    processRead defaultCfg initState exRead1 =
      admitRead defaultCfg
        (startNewMolecule defaultCfg (submitStep (flushSmallChunk defaultCfg
          { initState with movieNames := insertMovie initState.movieNames exRead1.movieName }))
          exRead1) exRead1 :=
  ⟨((C1_boundary_hole_only defaultCfg stateAfter1 exRead2).1 (by decide)).2.1,
   (C1_boundary_hole_only defaultCfg initState exRead1).2 (by decide)⟩

/-- C2: whatever the interleaving of worker completions, the queue model
delivers results in exactly submission order: at every reachable state the
delivered prefix followed by the pending handles is the submission list,
and once drained the delivered list is the whole submission list in order. -/
theorem C2_consume_in_submission_order {α : Type} (subs : List (ℕ × α))
    (q : QueueState α) (h : QReach (initQueue subs) q) :
    q.delivered ++ q.pending = subs ∧
    (q.pending = [] → q.delivered = subs) := by
  have hinv := qreach_invariant _ _ h
  simp only [initQueue, List.nil_append] at hinv
  exact ⟨hinv, fun hp => by simpa [hp] using hinv⟩

/-- C2 witness: two submissions completed out of order (handle 1 before
handle 0) are still consumed in submission order. -/
theorem C2_consume_in_submission_order_witness :
    ((⟨[], [0, 1], [(0, 10), (1, 20)]⟩ : QueueState ℕ).delivered = [(0, 10), (1, 20)]) := by
  have hstep1 : QStep (initQueue [(0, 10), (1, 20)]) ⟨[(0, 10), (1, 20)], [1], []⟩ :=
    QStep.complete (initQueue [(0, 10), (1, 20)]) 1 (by decide) (by decide)
  have hstep2 : QStep (⟨[(0, 10), (1, 20)], [1], []⟩ : QueueState ℕ)
      ⟨[(0, 10), (1, 20)], [0, 1], []⟩ :=
    QStep.complete _ 0 (by decide) (by decide)
  have hstep3 : QStep (⟨[(0, 10), (1, 20)], [0, 1], []⟩ : QueueState ℕ)
      ⟨[(1, 20)], [0, 1], [(0, 10)]⟩ :=
    QStep.consume _ (0, 10) [(1, 20)] rfl (by decide)
  have hstep4 : QStep (⟨[(1, 20)], [0, 1], [(0, 10)]⟩ : QueueState ℕ)
      ⟨[], [0, 1], [(0, 10), (1, 20)]⟩ :=
    QStep.consume _ (1, 20) [] rfl (by decide)
  have hreach : QReach (initQueue [(0, 10), (1, 20)]) ⟨[], [0, 1], [(0, 10), (1, 20)]⟩ :=
    QReach.tail _ _ _ (QReach.tail _ _ _ (QReach.tail _ _ _
      (QReach.tail _ _ _ (QReach.refl _) hstep1) hstep2) hstep3) hstep4
  exact (C2_consume_in_submission_order [(0, 10), (1, 20)] _ hreach).2 rfl

/-- C3: chunks below the minimum-passes threshold are never submitted; a
non-boundary iteration never touches `tooFewPasses`, the submissions or the
chunk count (so no discard happens at read-admission time); at a boundary
(or the end-of-stream flush, both of which run `flushSmallChunk`), an
undersized in-progress chunk is popped and counted exactly once, and a
big-enough one is left to be submitted. -/
theorem C3_min_passes_at_boundary (cfg : CcsConfig) :
    (∀ files : List (List Read), ∀ b ∈ (runFiles cfg files).submitted,
      ∀ c ∈ b, cfg.minPasses ≤ c.Reads.length) ∧
    (∀ (s : LoopState) (r : Read), s.holeNumber = some r.holeNumber →
      (processRead cfg s r).tooFewPasses = s.tooFewPasses ∧
      (processRead cfg s r).submitted = s.submitted ∧
      (processRead cfg s r).chunk.length = s.chunk.length) ∧
    (∀ (s : LoopState) (cs : List Chunk) (c : Chunk),
      s.chunk = cs ++ [c] → c.Reads.length < cfg.minPasses →
      flushSmallChunk cfg s =
        { s with tooFewPasses := s.tooFewPasses + 1, chunk := cs }) ∧
    (∀ (s : LoopState) (cs : List Chunk) (c : Chunk),
      s.chunk = cs ++ [c] → ¬ c.Reads.length < cfg.minPasses →
      flushSmallChunk cfg s = s) := by
  refine ⟨fun files => goodBatches_runFiles cfg files, ?_, ?_, ?_⟩
  · intro s r hhole
    have heq := processRead_same_hole cfg s r hhole
    rw [heq]
    exact ⟨by rw [admitRead_tooFewPasses], by rw [admitRead_submitted],
      by rw [admitRead_chunk_length]⟩
  · exact fun s cs c => flushSmallChunk_small cfg s cs c
  · exact fun s cs c => flushSmallChunk_big cfg s cs c

/-- C3 witness: the zero-read chunk is discarded and counted by the
boundary flush, and a same-hole iteration leaves the counter alone. -/
theorem C3_min_passes_at_boundary_witness :
    flushSmallChunk defaultCfg emptyChunkState =
      { emptyChunkState with
        tooFewPasses := emptyChunkState.tooFewPasses + 1, chunk := [] } ∧
    (processRead defaultCfg stateAfter1 exRead2).tooFewPasses = stateAfter1.tooFewPasses :=
  ⟨(C3_min_passes_at_boundary defaultCfg).2.2.1 emptyChunkState []
      { Id := ⟨"movieA", 7, none⟩, Reads := [], SignalToNoise := highSnr } rfl (by decide),
   ((C3_min_passes_at_boundary defaultCfg).2.1 stateAfter1 exRead2 (by decide)).1⟩

/-- C4: at a molecule boundary the filters run in the fixed order
whitelist, chemistry, minimum SNR, short-circuiting on the first failure;
whitelist and chemistry failures only set the skip flag, an SNR failure
additionally increments `poorSNR` by exactly one, and only when all three
pass is a new chunk started; `processRead` invokes this filter step exactly
at a boundary. -/
theorem C4_molecule_filter_order (cfg : CcsConfig) (s : LoopState) (r : Read) :
    (whitelistExcludes cfg r.movieName r.holeNumber = true →
      startNewMolecule cfg s r =
        { s with holeNumber := some r.holeNumber, skipZmw := true }) ∧
    (whitelistExcludes cfg r.movieName r.holeNumber = false →
      VerifyChemistry r.readGroup = false →
      startNewMolecule cfg s r =
        { s with holeNumber := some r.holeNumber, skipZmw := true }) ∧
    (whitelistExcludes cfg r.movieName r.holeNumber = false →
      VerifyChemistry r.readGroup = true →
      minSnr4 r.snr < cfg.minSnr →
      startNewMolecule cfg s r =
        { s with holeNumber := some r.holeNumber, skipZmw := true,
                 poorSNR := s.poorSNR + 1 }) ∧
    (whitelistExcludes cfg r.movieName r.holeNumber = false →
      VerifyChemistry r.readGroup = true →
      ¬ minSnr4 r.snr < cfg.minSnr →
      startNewMolecule cfg s r =
        { s with holeNumber := some r.holeNumber, skipZmw := false,
                 chunk := s.chunk ++ [newChunk r] }) ∧
    (s.holeNumber ≠ some r.holeNumber →
      processRead cfg s r =
        admitRead cfg (startNewMolecule cfg (submitStep (flushSmallChunk cfg
          { s with movieNames := insertMovie s.movieNames r.movieName })) r) r) := by
  refine ⟨?_, ?_, ?_, ?_, processRead_boundary cfg s r⟩
  · intro h1
    simp [startNewMolecule, h1]
  · intro h1 h2
    simp [startNewMolecule, h1, h2]
  · intro h1 h2 h3
    simp [startNewMolecule, h1, h2, h3]
  · intro h1 h2 h3
    simp [startNewMolecule, h1, h2, h3]

/-- C4 witness: each filter branch at a concrete boundary. -/
theorem C4_molecule_filter_order_witness :
    startNewMolecule wlCfg initState exRead1 =
      { initState with holeNumber := some exRead1.holeNumber, skipZmw := true } ∧
    startNewMolecule defaultCfg initState badChemRead =
      { initState with holeNumber := some badChemRead.holeNumber, skipZmw := true } ∧
    startNewMolecule defaultCfg initState lowSnrRead =
      { initState with holeNumber := some lowSnrRead.holeNumber, skipZmw := true,
                       poorSNR := initState.poorSNR + 1 } ∧
    startNewMolecule defaultCfg initState exRead1 =
      { initState with holeNumber := some exRead1.holeNumber, skipZmw := false,
                       chunk := initState.chunk ++ [newChunk exRead1] } :=
  ⟨(C4_molecule_filter_order wlCfg initState exRead1).1 (by decide),
   (C4_molecule_filter_order defaultCfg initState badChemRead).2.1 (by decide) (by decide),
   (C4_molecule_filter_order defaultCfg initState lowSnrRead).2.2.1 (by decide) (by decide)
     (by decide),
   (C4_molecule_filter_order defaultCfg initState exRead1).2.2.2.1 (by decide) (by decide)
     (by decide)⟩

/-- C5: each fatal configuration error — MinPasses below 1, malformed
--zmws specification, missing OUTPUT, missing FILES, existing output
without --force — aborts startup with that error, checked in source order;
and whenever startup aborts with a configuration error, no `BamWriter` for
the output path was constructed (no event at all was performed), so the
output file is never created or truncated. -/
theorem C5_config_errors_before_output (env : CliEnv) :
    (env.minPasses < 1 → mainStartup env = ([], some ConfigError.badMinPasses)) ∧
    (¬ env.minPasses < 1 → env.zmwsSpec ≠ "" → env.zmwsParseOk env.zmwsSpec = false →
      mainStartup env = ([], some ConfigError.badZmws)) ∧
    (¬ env.minPasses < 1 → ¬ (env.zmwsSpec ≠ "" ∧ env.zmwsParseOk env.zmwsSpec = false) →
      env.args = [] → mainStartup env = ([], some ConfigError.missingOutput)) ∧
    (∀ out, ¬ env.minPasses < 1 →
      ¬ (env.zmwsSpec ≠ "" ∧ env.zmwsParseOk env.zmwsSpec = false) →
      env.args = [out] → mainStartup env = ([], some ConfigError.missingFiles)) ∧
    (∀ out second rest, ¬ env.minPasses < 1 →
      ¬ (env.zmwsSpec ≠ "" ∧ env.zmwsParseOk env.zmwsSpec = false) →
      env.args = out :: second :: rest →
      env.fileExists out = true → env.forceOutput = false →
      mainStartup env = ([], some ConfigError.outputExists)) ∧
    (∀ e, (mainStartup env).2 = some e →
      ∀ p, MainEvent.createBamWriter p ∉ (mainStartup env).1) := by
  refine ⟨?_, ?_, ?_, ?_, ?_, ?_⟩
  · intro h1
    simp [mainStartup, h1]
  · intro h1 h2 h3
    simp [mainStartup, h1, h2, h3]
  · intro h1 h2 h3
    simp [mainStartup, h1, h2, h3]
  · intro out h1 h2 h3
    simp [mainStartup, h1, h2, h3]
  · intro out second rest h1 h2 h3 h4 h5
    simp [mainStartup, h1, h2, h3, h4, h5]
  · intro e he p
    rw [mainStartup_error_no_events env e he]
    simp

/-- C5 witness: the MinPasses check fires and no BamWriter event occurs. -/
theorem C5_config_errors_before_output_witness :
    mainStartup badMinPassesEnv = ([], some ConfigError.badMinPasses) ∧
    MainEvent.createBamWriter "out.bam" ∉ (mainStartup badMinPassesEnv).1 :=
  ⟨(C5_config_errors_before_output badMinPassesEnv).1 (by decide),
   (C5_config_errors_before_output badMinPassesEnv).2.2.2.2.2
     ConfigError.badMinPasses
     (by rw [(C5_config_errors_before_output badMinPassesEnv).1 (by decide)])
     "out.bam"⟩

/-- C6: for a read of the current, non-skipped molecule, the read is
appended to the chunk exactly when its accuracy is at least 1000 times the
--minReadScore option value; a dropped read leaves the molecule unskipped
and in progress; over a whole same-molecule read list the chunk collects
exactly the admitted sub-reads, in stream order. -/
theorem C6_read_admission (cfg : CcsConfig) (opt : ℚ) (s : LoopState) (r : Read)
    (hcfg : cfg.minReadScore = scaledMinReadScore opt)
    (hhole : s.holeNumber = some r.holeNumber) (hskip : s.skipZmw = false) :
    (1000 * opt ≤ r.readAccuracy →
      processRead cfg s r =
        { s with movieNames := insertMovie s.movieNames r.movieName,
                 chunk := appendToLast s.chunk (mkSubread r) }) ∧
    (r.readAccuracy < 1000 * opt →
      processRead cfg s r =
        { s with movieNames := insertMovie s.movieNames r.movieName } ∧
      (processRead cfg s r).skipZmw = false ∧
      (processRead cfg s r).holeNumber = some r.holeNumber) ∧
    (∀ (l : List Read) (c : Chunk), s.chunk = [c] →
      (∀ x ∈ l, x.holeNumber = r.holeNumber) →
      (l.foldl (processRead cfg) s).chunk =
        [{ c with Reads := c.Reads ++ admittedSubs cfg l }]) := by
  refine ⟨?_, ?_, ?_⟩
  · intro hge
    have hacc : ¬ r.readAccuracy < cfg.minReadScore := by
      rw [hcfg]
      exact not_lt.mpr hge
    rw [processRead_same_hole_noskip cfg s r hhole hskip, if_neg hacc]
  · intro hlt
    have hacc : r.readAccuracy < cfg.minReadScore := by
      rw [hcfg]
      exact hlt
    rw [processRead_same_hole_noskip cfg s r hhole hskip, if_pos hacc]
    exact ⟨rfl, hskip, hhole⟩
  · intro l c hc hl
    rw [foldl_processRead_same_hole cfg l s r.holeNumber hhole hskip hl]
    show appendAllSubs cfg s.chunk l = _
    rw [hc, appendAllSubs_single]

/-- C6 witness: admission and rejection at the default threshold
(750 = 1000 × 0.75), plus stream-order accumulation over a read list. -/
theorem C6_read_admission_witness :
    processRead defaultCfg stateAfter1 exRead2 =
      { stateAfter1 with
        movieNames := insertMovie stateAfter1.movieNames exRead2.movieName,
        chunk := appendToLast stateAfter1.chunk (mkSubread exRead2) } ∧
    processRead defaultCfg stateAfter1 lowAccRead =
      { stateAfter1 with
        movieNames := insertMovie stateAfter1.movieNames lowAccRead.movieName } :=
  ⟨(C6_read_admission defaultCfg (3/4) stateAfter1 exRead2
      (by norm_num [defaultCfg, scaledMinReadScore]) (by decide) (by decide)).1
      (by norm_num [exRead2, exRead1]),
   ((C6_read_admission defaultCfg (3/4) stateAfter1 lowAccRead
      (by norm_num [defaultCfg, scaledMinReadScore]) (by decide) (by decide)).2.1
      (by norm_num [lowAccRead, exRead1])).1⟩

/-- C7: `ThreadCount` returns `max(1, hc + n)` for `n < 1` (hardware
concurrency minus the bias, floored at 1) and `min(hc, n)` for `n ≥ 1`;
with at least one hardware thread, `n = 0` yields the detected hardware
concurrency itself. -/
theorem C7_threadCount (hc : ℕ) (n : ℤ) :
    (n < 1 → ThreadCount hc n = max 1 ((hc : ℤ) + n)) ∧
    (1 ≤ n → ThreadCount hc n = min (hc : ℤ) n) ∧
    (1 ≤ hc → ThreadCount hc 0 = (hc : ℤ)) := by
  refine ⟨?_, ?_, ?_⟩
  · intro h
    simp [ThreadCount, h]
  · intro h
    simp [ThreadCount, not_lt.mpr h]
  · intro h
    have h1 : (1 : ℤ) ≤ (hc : ℤ) := by exact_mod_cast h
    simp [ThreadCount, max_eq_right h1]

/-- C7 witness: a negative bias, a positive request, and autodetection on
an 8-thread machine. -/
theorem C7_threadCount_witness :
    ThreadCount 8 (-3) = 5 ∧ ThreadCount 8 4 = 4 ∧ ThreadCount 8 0 = 8 := by
  refine ⟨?_, ?_, ?_⟩
  · have h := (C7_threadCount 8 (-3)).1 (by decide)
    simpa using h
  · have h := (C7_threadCount 8 4).2.1 (by decide)
    simpa using h
  · exact (C7_threadCount 8 0).2.2 (by decide)

/-- C8: the final counters merge the writer thread's accumulated `Results`
with the producer-side rejection tallies — reported `PoorSNR` is the
consumer's plus the producer's, reported `TooFewPasses` likewise, every
other counter is the consumer's unchanged — and the report is written from
exactly these merged counters. -/
theorem C8_shutdown_counter_merge (consumer : Results) (p t : ℕ)
    (cfg : CcsConfig) (files : List (List Read)) :
    (mergedCounts consumer p t).PoorSNR = consumer.PoorSNR + p ∧
    (mergedCounts consumer p t).TooFewPasses = consumer.TooFewPasses + t ∧
    (mergedCounts consumer p t).Success = consumer.Success ∧
    (mergedCounts consumer p t).NoSubreads = consumer.NoSubreads ∧
    (mergedCounts consumer p t).TooShort = consumer.TooShort ∧
    (mergedCounts consumer p t).TooManyUnusable = consumer.TooManyUnusable ∧
    (mergedCounts consumer p t).NonConvergent = consumer.NonConvergent ∧
    (mergedCounts consumer p t).PoorQuality = consumer.PoorQuality ∧
    finalReport cfg files consumer =
      WriteResultsReport
        (mergedCounts consumer (runFiles cfg files).poorSNR
          (runFiles cfg files).tooFewPasses) :=
  ⟨rfl, rfl, rfl, rfl, rfl, rfl, rfl, rfl, rfl⟩

/-- C9: the report is exactly eight rows, in the fixed outcome order
Success, PoorSNR, NoSubreads, TooShort, TooFewPasses, TooManyUnusable,
NonConvergent, PoorQuality, each row carrying that outcome's count and
100 × count / total rendered in fixed notation with two decimals — the
source-shaped `WriteResultsReport` coincides with the claim-shaped
`claimReportRows`. -/
theorem C9_report_rows (c : Results) (_htotal : 0 < c.Total) :
    (WriteResultsReport c).length = 8 ∧
    WriteResultsReport c = claimReportRows c := by
  constructor
  · rfl
  · simp [WriteResultsReport, claimReportRows, reportLine]

/-- C9 witness: eight rows at a concrete, nonzero-total counter set. -/
theorem C9_report_rows_witness :
    0 < sampleCounts.Total ∧ (WriteResultsReport sampleCounts).length = 8 :=
  ⟨by decide, (C9_report_rows sampleCounts (by decide)).1⟩

/-- From a state whose chunk vector is empty, an accepted molecule's reads
fold into exactly one fresh chunk holding all its sub-reads. The entry
state `w` is the state right after the boundary's flush and submit. -/
lemma file_fold_accept (cfg : CcsConfig) (w : LoopState) (r : Read) (t : List Read)
    (hchunk : w.chunk = [])
    (hh : ∀ x ∈ t, x.holeNumber = r.holeNumber)
    (hwl : whitelistExcludes cfg r.movieName r.holeNumber = false)
    (hchem : VerifyChemistry r.readGroup = true)
    (hsnr : ¬ minSnr4 r.snr < cfg.minSnr)
    (hacc : ∀ x ∈ r :: t, ¬ x.readAccuracy < cfg.minReadScore) :
    t.foldl (processRead cfg) (admitRead cfg (startNewMolecule cfg w r) r) =
      { w with holeNumber := some r.holeNumber, skipZmw := false,
               movieNames := registerAll w.movieNames t,
               chunk := [{ Id := ⟨r.movieName, r.holeNumber, none⟩,
                           Reads := (r :: t).map mkSubread,
                           SignalToNoise := r.snr }] } := by
  have hstart : startNewMolecule cfg w r =
      { w with holeNumber := some r.holeNumber, skipZmw := false,
               chunk := [newChunk r] } := by
    simp [startNewMolecule, hwl, hchem, hsnr, hchunk]
  have haccr : ¬ r.readAccuracy < cfg.minReadScore := hacc r (by simp)
  have hadm : admitRead cfg (startNewMolecule cfg w r) r =
      { w with holeNumber := some r.holeNumber, skipZmw := false,
               chunk := [{ Id := ⟨r.movieName, r.holeNumber, none⟩,
                           Reads := [mkSubread r],
                           SignalToNoise := r.snr }] } := by
    rw [hstart]
    unfold admitRead
    simp [haccr, appendToLast_single, newChunk]
  rw [hadm,
    foldl_processRead_same_hole cfg t _ r.holeNumber rfl rfl hh,
    appendAllSubs_single,
    admittedSubs_all_pass cfg t (fun x hx => hacc x (by simp [hx]))]
  rfl

/-- Processing a whole file whose reads all belong to one accepted
molecule, entering with an empty chunk vector: nothing is flushed or
submitted, one chunk accumulates every read. -/
lemma processFile_accept_empty (cfg : CcsConfig) (s : LoopState) (r : Read)
    (t : List Read) (hchunk : s.chunk = [])
    (hh : ∀ x ∈ t, x.holeNumber = r.holeNumber)
    (hwl : whitelistExcludes cfg r.movieName r.holeNumber = false)
    (hchem : VerifyChemistry r.readGroup = true)
    (hsnr : ¬ minSnr4 r.snr < cfg.minSnr)
    (hacc : ∀ x ∈ r :: t, ¬ x.readAccuracy < cfg.minReadScore) :
    processFile cfg s (r :: t) =
      { s with movieNames := registerAll (insertMovie s.movieNames r.movieName) t,
               holeNumber := some r.holeNumber, skipZmw := false,
               chunk := [{ Id := ⟨r.movieName, r.holeNumber, none⟩,
                           Reads := (r :: t).map mkSubread,
                           SignalToNoise := r.snr }] } := by
  unfold processFile
  rw [List.foldl_cons]
  rw [processRead_boundary cfg _ r (by simp)]
  rw [flushSmallChunk_empty cfg _ (by simpa using hchunk)]
  rw [submitStep_empty _ (by simpa using hchunk)]
  rw [file_fold_accept cfg _ r t (by simpa using hchunk) hh hwl hchem hsnr hacc]

/-- Processing a whole file whose reads all belong to one accepted
molecule, entering with one big-enough in-progress chunk: that chunk is
kept by the min-passes check and submitted at the forced boundary, and the
file's molecule accumulates into a fresh, separate chunk. -/
lemma processFile_accept_submit (cfg : CcsConfig) (s : LoopState) (r : Read)
    (t : List Read) (c : Chunk) (hchunk : s.chunk = [c])
    (hbig : ¬ c.Reads.length < cfg.minPasses)
    (hh : ∀ x ∈ t, x.holeNumber = r.holeNumber)
    (hwl : whitelistExcludes cfg r.movieName r.holeNumber = false)
    (hchem : VerifyChemistry r.readGroup = true)
    (hsnr : ¬ minSnr4 r.snr < cfg.minSnr)
    (hacc : ∀ x ∈ r :: t, ¬ x.readAccuracy < cfg.minReadScore) :
    processFile cfg s (r :: t) =
      { s with movieNames := registerAll (insertMovie s.movieNames r.movieName) t,
               holeNumber := some r.holeNumber, skipZmw := false,
               submitted := s.submitted ++ [[c]],
               chunk := [{ Id := ⟨r.movieName, r.holeNumber, none⟩,
                           Reads := (r :: t).map mkSubread,
                           SignalToNoise := r.snr }] } := by
  unfold processFile
  rw [List.foldl_cons]
  rw [processRead_boundary cfg _ r (by simp)]
  rw [flushSmallChunk_big cfg _ [] c (by simpa using hchunk) hbig]
  rw [submitStep_nonempty _ (by simp [hchunk])]
  rw [file_fold_accept cfg _ r t rfl hh hwl hchem hsnr hacc]
  simp [hchunk]

/-- The end-of-stream flush submits a final big-enough chunk. -/
lemma finalFlush_big (cfg : CcsConfig) (s : LoopState) (c : Chunk)
    (hchunk : s.chunk = [c]) (hbig : ¬ c.Reads.length < cfg.minPasses) :
    finalFlush cfg s = { s with submitted := s.submitted ++ [[c]], chunk := [] } := by
  unfold finalFlush
  rw [flushSmallChunk_big cfg s [] c (by simpa using hchunk) hbig]
  simp [hchunk]

/-- C10: per-file reset of `holeNumber`/`skipZmw` forces a boundary at
every file transition. A molecule whose reads span two files is flushed as
two separate chunks — the first portion submitted at the start of the
second file, the second portion at end of stream, each re-filtered and
min-passes-checked on its own — whereas the same reads in a single file
assemble into one chunk. -/
theorem C10_file_boundary_split (cfg : CcsConfig) (r1 r2 : Read)
    (t1 t2 : List Read)
    (_hmv : r2.movieName = r1.movieName)
    (hh1 : ∀ x ∈ r1 :: t1, x.holeNumber = r1.holeNumber)
    (hh2 : ∀ x ∈ r2 :: t2, x.holeNumber = r1.holeNumber)
    (hwl1 : whitelistExcludes cfg r1.movieName r1.holeNumber = false)
    (hchem1 : VerifyChemistry r1.readGroup = true)
    (hsnr1 : ¬ minSnr4 r1.snr < cfg.minSnr)
    (hwl2 : whitelistExcludes cfg r2.movieName r2.holeNumber = false)
    (hchem2 : VerifyChemistry r2.readGroup = true)
    (hsnr2 : ¬ minSnr4 r2.snr < cfg.minSnr)
    (hacc : ∀ x ∈ (r1 :: t1) ++ (r2 :: t2), ¬ x.readAccuracy < cfg.minReadScore)
    (hp1 : cfg.minPasses ≤ (r1 :: t1).length)
    (hp2 : cfg.minPasses ≤ (r2 :: t2).length) :
    (runFiles cfg [r1 :: t1, r2 :: t2]).submitted =
      [ [{ Id := ⟨r1.movieName, r1.holeNumber, none⟩,
           Reads := (r1 :: t1).map mkSubread, SignalToNoise := r1.snr }],
        [{ Id := ⟨r2.movieName, r2.holeNumber, none⟩,
           Reads := (r2 :: t2).map mkSubread, SignalToNoise := r2.snr }] ] ∧
    (runFiles cfg [(r1 :: t1) ++ (r2 :: t2)]).submitted =
      [ [{ Id := ⟨r1.movieName, r1.holeNumber, none⟩,
           Reads := ((r1 :: t1) ++ (r2 :: t2)).map mkSubread,
           SignalToNoise := r1.snr }] ] := by
  have hacc1 : ∀ x ∈ r1 :: t1, ¬ x.readAccuracy < cfg.minReadScore :=
    fun x hx => hacc x (List.mem_append_left _ hx)
  have hacc2 : ∀ x ∈ r2 :: t2, ¬ x.readAccuracy < cfg.minReadScore :=
    fun x hx => hacc x (List.mem_append_right _ hx)
  have hh2r : ∀ x ∈ t2, x.holeNumber = r2.holeNumber :=
    fun x hx => (hh2 x (by simp [hx])).trans (hh2 r2 (by simp)).symm
  constructor
  · show (finalFlush cfg (processFile cfg (processFile cfg initState (r1 :: t1))
      (r2 :: t2))).submitted = _
    rw [processFile_accept_empty cfg initState r1 t1 rfl
      (fun x hx => hh1 x (by simp [hx])) hwl1 hchem1 hsnr1 hacc1]
    rw [processFile_accept_submit cfg _ r2 t2 _ rfl
      (by simpa using not_lt.mpr hp1) hh2r hwl2 hchem2 hsnr2 hacc2]
    rw [finalFlush_big cfg _
      { Id := ⟨r2.movieName, r2.holeNumber, none⟩,
        Reads := (r2 :: t2).map mkSubread, SignalToNoise := r2.snr } rfl
      (by simpa using not_lt.mpr hp2)]
    simp [initState]
  · show (finalFlush cfg (processFile cfg initState ((r1 :: t1) ++ (r2 :: t2)))).submitted = _
    rw [List.cons_append]
    rw [processFile_accept_empty cfg initState r1 (t1 ++ (r2 :: t2)) rfl
      (fun x hx => by
        rcases List.mem_append.mp hx with hx1 | hx2
        · exact hh1 x (by simp [hx1])
        · exact hh2 x hx2)
      hwl1 hchem1 hsnr1
      (fun x hx => hacc x (by
        rcases List.mem_cons.mp hx with hx1 | hx2
        · simp [hx1]
        · rcases List.mem_append.mp hx2 with hx3 | hx4
          · simp [hx3]
          · exact List.mem_append_right _ hx4))]
    rw [finalFlush_big cfg _
      { Id := ⟨r1.movieName, r1.holeNumber, none⟩,
        Reads := (r1 :: (t1 ++ (r2 :: t2))).map mkSubread, SignalToNoise := r1.snr } rfl
      (by
        simp only [List.length_map, List.length_cons, List.length_append]
        have := hp1
        simp only [List.length_cons] at this
        omega)]
    simp [initState]


/-- C10 witness: one molecule, one read per file — split across two files
it is submitted as two one-read chunks; in a single file, as one two-read
chunk. -/
theorem C10_file_boundary_split_witness :
    (runFiles defaultCfg [[exRead1], [exRead1b]]).submitted =
      [ [{ Id := ⟨exRead1.movieName, exRead1.holeNumber, none⟩,
           Reads := [exRead1].map mkSubread, SignalToNoise := exRead1.snr }],
        [{ Id := ⟨exRead1b.movieName, exRead1b.holeNumber, none⟩,
           Reads := [exRead1b].map mkSubread, SignalToNoise := exRead1b.snr }] ] ∧
    (runFiles defaultCfg [[exRead1] ++ [exRead1b]]).submitted =
      [ [{ Id := ⟨exRead1.movieName, exRead1.holeNumber, none⟩,
           Reads := ([exRead1] ++ [exRead1b]).map mkSubread,
           SignalToNoise := exRead1.snr }] ] :=
  C10_file_boundary_split defaultCfg exRead1 exRead1b [] [] rfl (by decide) (by decide)
    (by decide) (by decide) (by decide) (by decide) (by decide) (by decide)
    (by decide) (by decide) (by decide)

end PbCcs
